import Mathlib

/-!
Verification of the inclusion placement and rasterization engine of the
Digital_Rock_Physics_Template repository (the `drp_template.model.generators`
module with entry points `create_binary_model_2d` and `create_binary_model_3d`).

The repository snapshot available here contains only the documentation of that
module (the 2D-vs-3D guide, the changelog, and the release notes), not the
Python function bodies themselves, so the engine is modelled from the
specification: every definition carries a doc comment naming the spec clause
it embeds.  Scalars are embedded as `ℚ` (the Python code computes with float64
coordinates; the geometry is exact real arithmetic in the spec), label values
as `ℤ`, and the seeded NumPy random stream as an explicit 64-bit linear
congruential generator threaded through the call.  The irrational ingredients
(cosine and sine of the sampled Euler angles) are abstracted as an explicit
`TrigOracle` argument mapping an angle, measured in turns, to its
(cosine, sine) pair.
-/

set_option maxRecDepth 10000

namespace DrpBinaryModel

/-- Modelled from the spec: the single error class of §7, raised eagerly
during validation ("ConfigurationError — non-positive dimensions,
non-positive radius or aspect ratio, ... mismatched explicit-position array
shape/dimensionality, identical background/inclusion values"). -/
inductive ConfigError where
  | configurationError
deriving DecidableEq

/-- A trig oracle maps an angle, measured in turns (one turn = 2π radians),
to its (cosine, sine) pair.  The generation pipeline is parameterized over it
because cosine and sine of a sampled angle are irrational; a faithful oracle
satisfies `trig 0 = (1, 0)`. -/
def TrigOracle : Type := ℚ → ℚ × ℚ

/-- The oracle used to instantiate concrete scenarios that never rotate:
it is faithful at angle `0`, the only angle such scenarios evaluate. -/
def trigId : TrigOracle := fun _ => (1, 0)

/-- Modelled from the spec: §9 requires "an explicit seeded generator
instance threaded through every call".  The NumPy bit stream itself is not in
the repository snapshot; we model it as a 64-bit linear congruential step. -/
def lcgNext (s : Nat) : Nat := (6364136223846793005 * s + 1442695040888963407) % 2 ^ 64

/-- Modelled from the spec: one uniform draw from the stream state, a rational
in `[0, 1)` (53 bits, as a float64 uniform draw). -/
def uniformUnit (s : Nat) : ℚ := ((s % 2 ^ 53 : Nat) : ℚ) / (2 ^ 53 : ℚ)

/-- Advance the stream and produce one uniform `[0, 1)` draw. -/
def drawUnit (s : Nat) : ℚ × Nat := (uniformUnit (lcgNext s), lcgNext s)

/-- Modelled from the spec: §4.1 — "With a seed supplied, two invocations with
identical parameters must produce bit-identical center sets ...; omitting the
seed yields non-reproducible sampling."  The initial stream state is the seed
when one is supplied, and otherwise ambient entropy (the OS entropy a real
run would gather), which we pass as an explicit argument. -/
def initState (entropy : Nat) (seed : Option Nat) : Nat := seed.getD entropy

/-- A planar (2D) coordinate pair. -/
structure V2 where
  x : ℚ
  y : ℚ
deriving DecidableEq

/-- A spatial (3D) coordinate triple. -/
structure V3 where
  x : ℚ
  y : ℚ
  z : ℚ
deriving DecidableEq

/-- A 2×2 matrix over `ℚ`, row-major fields. -/
structure M2 where
  a11 : ℚ
  a12 : ℚ
  a21 : ℚ
  a22 : ℚ
deriving DecidableEq

/-- A 3×3 matrix over `ℚ`, row-major fields. -/
structure M3 where
  a11 : ℚ
  a12 : ℚ
  a13 : ℚ
  a21 : ℚ
  a22 : ℚ
  a23 : ℚ
  a31 : ℚ
  a32 : ℚ
  a33 : ℚ
deriving DecidableEq

def M2.id : M2 := ⟨1, 0, 0, 1⟩

def M2.mul (m n : M2) : M2 :=
  ⟨m.a11 * n.a11 + m.a12 * n.a21, m.a11 * n.a12 + m.a12 * n.a22,
   m.a21 * n.a11 + m.a22 * n.a21, m.a21 * n.a12 + m.a22 * n.a22⟩

def M2.transpose (m : M2) : M2 := ⟨m.a11, m.a21, m.a12, m.a22⟩

def M2.apply (m : M2) (v : V2) : V2 :=
  ⟨m.a11 * v.x + m.a12 * v.y, m.a21 * v.x + m.a22 * v.y⟩

def M3.id : M3 := ⟨1, 0, 0, 0, 1, 0, 0, 0, 1⟩

def M3.mul (m n : M3) : M3 :=
  ⟨m.a11 * n.a11 + m.a12 * n.a21 + m.a13 * n.a31,
   m.a11 * n.a12 + m.a12 * n.a22 + m.a13 * n.a32,
   m.a11 * n.a13 + m.a12 * n.a23 + m.a13 * n.a33,
   m.a21 * n.a11 + m.a22 * n.a21 + m.a23 * n.a31,
   m.a21 * n.a12 + m.a22 * n.a22 + m.a23 * n.a32,
   m.a21 * n.a13 + m.a22 * n.a23 + m.a23 * n.a33,
   m.a31 * n.a11 + m.a32 * n.a21 + m.a33 * n.a31,
   m.a31 * n.a12 + m.a32 * n.a22 + m.a33 * n.a32,
   m.a31 * n.a13 + m.a32 * n.a23 + m.a33 * n.a33⟩

def M3.transpose (m : M3) : M3 :=
  ⟨m.a11, m.a21, m.a31, m.a12, m.a22, m.a32, m.a13, m.a23, m.a33⟩

def M3.apply (m : M3) (v : V3) : V3 :=
  ⟨m.a11 * v.x + m.a12 * v.y + m.a13 * v.z,
   m.a21 * v.x + m.a22 * v.y + m.a23 * v.z,
   m.a31 * v.x + m.a32 * v.y + m.a33 * v.z⟩

/-- Modelled from the spec: §4.2 — the standard 2×2 in-plane rotation matrix,
built from the (cosine, sine) of the single 2D angle (as in the guide:
`R = [[cos θ, −sin θ], [sin θ, cos θ]]`). -/
def rot2 (c s : ℚ) : M2 := ⟨c, -s, s, c⟩

/-- Rotation about the z axis from a (cosine, sine) pair. -/
def Rz (c s : ℚ) : M3 := ⟨c, -s, 0, s, c, 0, 0, 0, 1⟩

/-- Rotation about the y axis from a (cosine, sine) pair. -/
def Ry (c s : ℚ) : M3 := ⟨c, 0, s, 0, 1, 0, -s, 0, c⟩

/-- Rotation about the x axis from a (cosine, sine) pair. -/
def Rx (c s : ℚ) : M3 := ⟨1, 0, 0, 0, c, -s, 0, s, c⟩

/-- Modelled from the spec: §4.2 / changelog — the composed 3D rotation is
`R = Rz(α) @ Ry(β) @ Rx(γ)` (z-then-y-then-x composition); the angles are
measured in turns and converted through the trig oracle. -/
def rotFromTrig3 (trig : TrigOracle) (ang : ℚ × ℚ × ℚ) : M3 :=
  ((Rz (trig ang.1).1 (trig ang.1).2).mul
    (Ry (trig ang.2.1).1 (trig ang.2.1).2)).mul
    (Rx (trig ang.2.2).1 (trig ang.2.2).2)

/-- The 2D in-plane rotation for one sampled angle, through the trig oracle. -/
def rotFromTrig2 (trig : TrigOracle) (ang : ℚ) : M2 :=
  rot2 (trig ang).1 (trig ang).2

/-- Modelled from the spec: the fixed set of 3D `orientation` tokens,
`{xy, zx, zy}` (§6). -/
inductive Orient3 where
  | xy
  | zx
  | zy
deriving DecidableEq

/-- Modelled from the spec: §4.2 orientation-to-axis mapping — "`'xy'` scales
the Z axis, `'zx'` scales the Y axis, `'zy'` scales the X axis.  The other two
axes always use the unscaled radius."  The result lists the (x, y, z)
semi-axis lengths of the unrotated ellipsoid. -/
def semiAxes3d : Orient3 → ℚ → ℚ → V3
  | .xy, r, a => ⟨r, r, r * a⟩
  | .zx, r, a => ⟨r, r * a, r⟩
  | .zy, r, a => ⟨r * a, r, r⟩

/-- Modelled from the spec: in 2D the aspect ratio scales the vertical (y)
semi-axis of the unrotated ellipse (guide: `aspect_ratio < 1.0` gives a
vertically flattened ellipse, `> 1.0` a vertically elongated one). -/
def semiAxes2d (r a : ℚ) : V2 := ⟨r, r * a⟩

/-- Modelled from the spec: §4.4 MaskRasterizer membership test — translate
the voxel coordinate relative to the inclusion center, apply the inverse
rotation operator to obtain local coordinates, then test
`Σᵢ (xᵢ / aᵢ)² ≤ 1`. -/
def ellipseMember (center : V2) (rinv : M2) (ax : V2) (p : V2) : Bool :=
  let l := rinv.apply ⟨p.x - center.x, p.y - center.y⟩
  decide ((l.x / ax.x) ^ 2 + (l.y / ax.y) ^ 2 ≤ 1)

/-- Modelled from the spec: §4.4 membership test for a 3D ellipsoid. -/
def ellipsoidMember (center : V3) (rinv : M3) (ax : V3) (p : V3) : Bool :=
  let l := rinv.apply ⟨p.x - center.x, p.y - center.y, p.z - center.z⟩
  decide ((l.x / ax.x) ^ 2 + (l.y / ax.y) ^ 2 + (l.z / ax.z) ^ 2 ≤ 1)

/-- The derived maximum extent of an inclusion: the largest semi-axis (§4.3);
rotation cannot enlarge it, so it bounds the inclusion on every axis. -/
def maxExtent2 (ax : V2) : ℚ := max ax.x ax.y

/-- The derived maximum extent of a 3D inclusion (§4.3). -/
def maxExtent3 (ax : V3) : ℚ := max ax.x (max ax.y ax.z)

/-- Modelled from the spec: §4.3 — "for each axis independently determine
whether the inclusion's bounding extent crosses the 0 boundary or the L
boundary"; a crossing of 0 contributes the wrapped translation `+L`, a
crossing of L the wrapped translation `−L` (opposite-boundary convention),
and the untranslated offset 0 is always present. -/
def axisOffsets (c rmax L : ℚ) : List ℚ :=
  [0] ++ (if c - rmax < 0 then [L] else []) ++ (if L < c + rmax then [-L] else [])

/-- Whether a translated bounding interval `[c − rmax, c + rmax]` meets the
domain interval `[0, L]` on one axis (§4.3: copies whose translated bounding
region does not intersect the domain at all are omitted). -/
def intervalHits (c rmax L : ℚ) : Bool := decide (0 ≤ c + rmax ∧ c - rmax ≤ L)

/-- Modelled from the spec: §4.3 PeriodicImageExpander in 2D — with periodic
mode disabled only the untranslated copy is emitted; with it enabled, one
copy per combination of per-axis wrap offsets, dropping copies whose
translated bounding region misses the domain. -/
def expand2d (periodic : Bool) (c : V2) (rmax Lx Ly : ℚ) : List V2 :=
  if periodic then
    ((axisOffsets c.x rmax Lx).flatMap fun ox =>
      (axisOffsets c.y rmax Ly).map fun oy => V2.mk (c.x + ox) (c.y + oy)).filter
      fun c' => intervalHits c'.x rmax Lx && intervalHits c'.y rmax Ly
  else [c]

/-- Modelled from the spec: §4.3 PeriodicImageExpander in 3D. -/
def expand3d (periodic : Bool) (c : V3) (rmax Lx Ly Lz : ℚ) : List V3 :=
  if periodic then
    ((axisOffsets c.x rmax Lx).flatMap fun ox =>
      (axisOffsets c.y rmax Ly).flatMap fun oy =>
        (axisOffsets c.z rmax Lz).map fun oz =>
          V3.mk (c.x + ox) (c.y + oy) (c.z + oz)).filter
      fun c' => intervalHits c'.x rmax Lx && intervalHits c'.y rmax Ly &&
        intervalHits c'.z rmax Lz
  else [c]

/-- Modelled from the spec: §6 — the recognized configuration surface of the
2D entry point `create_binary_model_2d(nx, ny, ...)`.  Explicit positions are
kept as a raw list of coordinate rows so that shape validation can fail. -/
structure Params2 where
  nx : Nat
  ny : Nat
  num_inclusions : Nat
  inclusion_radius : ℚ
  inclusion_aspect_ratio : ℚ
  random_orientation : Bool
  positions : Option (List (List ℚ))
  periodic : Bool
  background_value : ℤ
  inclusion_value : ℤ
  seed : Option Nat

/-- Modelled from the spec: §6 — the configuration surface of the 3D entry
point `create_binary_model_3d(nx, ny, nz, ...)`. -/
structure Params3 where
  nx : Nat
  ny : Nat
  nz : Nat
  num_inclusions : Nat
  inclusion_radius : ℚ
  inclusion_aspect_ratio : ℚ
  orientation : Orient3
  random_orientation : Bool
  positions : Option (List (List ℚ))
  periodic : Bool
  background_value : ℤ
  inclusion_value : ℤ
  seed : Option Nat

/-- Modelled from the spec: §4.1 — an explicit position array is valid when
its shape is `(N, dimensionality)`: exactly `N` rows, each of the grid's
dimensionality. -/
def validPositions (dim n : Nat) : Option (List (List ℚ)) → Bool
  | none => true
  | some ps => (ps.length == n) && ps.all fun q => q.length == dim

/-- Modelled from the spec: §7 — eager validation of the 2D configuration;
every failure is the single `ConfigurationError` class, raised before any
rasterization work. -/
def validate2 (p : Params2) : Except ConfigError Unit :=
  if 0 < p.nx ∧ 0 < p.ny ∧ 0 < p.inclusion_radius ∧ 0 < p.inclusion_aspect_ratio ∧
      p.background_value ≠ p.inclusion_value ∧
      validPositions 2 p.num_inclusions p.positions = true
  then .ok () else .error .configurationError

/-- Modelled from the spec: §7 — eager validation of the 3D configuration. -/
def validate3 (p : Params3) : Except ConfigError Unit :=
  if 0 < p.nx ∧ 0 < p.ny ∧ 0 < p.nz ∧ 0 < p.inclusion_radius ∧
      0 < p.inclusion_aspect_ratio ∧ p.background_value ≠ p.inclusion_value ∧
      validPositions 3 p.num_inclusions p.positions = true
  then .ok () else .error .configurationError

/-- Read one validated 2-coordinate position row. -/
def toV2 : List ℚ → V2
  | [x, y] => ⟨x, y⟩
  | _ => ⟨0, 0⟩

/-- Read one validated 3-coordinate position row. -/
def toV3 : List ℚ → V3
  | [x, y, z] => ⟨x, y, z⟩
  | _ => ⟨0, 0, 0⟩

/-- Modelled from the spec: §4.1 PlacementSampler — pseudo-random uniform
sampling of `n` centers over the 2D domain extents from the seeded stream. -/
def sampleCenters2 : Nat → ℚ → ℚ → Nat → List V2 × Nat
  | 0, _, _, s => ([], s)
  | n + 1, lx, ly, s =>
    let (ux, s1) := drawUnit s
    let (uy, s2) := drawUnit s1
    let (rest, s3) := sampleCenters2 n lx ly s2
    (⟨ux * lx, uy * ly⟩ :: rest, s3)

/-- Modelled from the spec: §4.1 PlacementSampler — uniform sampling of `n`
centers over the 3D domain extents. -/
def sampleCenters3 : Nat → ℚ → ℚ → ℚ → Nat → List V3 × Nat
  | 0, _, _, _, s => ([], s)
  | n + 1, lx, ly, lz, s =>
    let (ux, s1) := drawUnit s
    let (uy, s2) := drawUnit s1
    let (uz, s3) := drawUnit s2
    let (rest, s4) := sampleCenters3 n lx ly lz s3
    (⟨ux * lx, uy * ly, uz * lz⟩ :: rest, s4)

/-- Modelled from the spec: §4.1 — the inclusion centers come either from the
explicit position array (which leaves the random stream untouched) or from
seeded uniform sampling over the domain extents. -/
def centersOf2 (p : Params2) (s : Nat) : List V2 × Nat :=
  match p.positions with
  | some ps => (ps.map toV2, s)
  | none => sampleCenters2 p.num_inclusions (p.nx : ℚ) (p.ny : ℚ) s

/-- Modelled from the spec: §4.1 — 3D inclusion centers. -/
def centersOf3 (p : Params3) (s : Nat) : List V3 × Nat :=
  match p.positions with
  | some ps => (ps.map toV3, s)
  | none => sampleCenters3 p.num_inclusions (p.nx : ℚ) (p.ny : ℚ) (p.nz : ℚ) s

/-- Modelled from the spec: §4.2 RotationEngine in 3D — one triple of Euler
angles per inclusion, each drawn uniformly from the stream when random
orientation is requested (the draw is a turn fraction in `[0, 1)`, i.e. an
angle uniform in `[0, 2π)`), else all 0. -/
def sampleAngles3 (random : Bool) (s : Nat) : (ℚ × ℚ × ℚ) × Nat :=
  if random then
    let (a, s1) := drawUnit s
    let (b, s2) := drawUnit s1
    let (g, s3) := drawUnit s2
    ((a, b, g), s3)
  else ((0, 0, 0), s)

/-- The per-inclusion list of sampled Euler angle triples. -/
def sampleAnglesList3 : Nat → Bool → Nat → List (ℚ × ℚ × ℚ) × Nat
  | 0, _, s => ([], s)
  | n + 1, random, s =>
    let (ang, s1) := sampleAngles3 random s
    let (rest, s2) := sampleAnglesList3 n random s1
    (ang :: rest, s2)

/-- Modelled from the spec: §4.2 RotationEngine in 2D — a single in-plane
angle per inclusion, uniform in `[0, 2π)` (drawn as a turn fraction in
`[0, 1)`) when random orientation is requested, else 0. -/
def sampleAngle2 (random : Bool) (s : Nat) : ℚ × Nat :=
  if random then drawUnit s else (0, s)

/-- The per-inclusion list of sampled 2D angles. -/
def sampleAnglesList2 : Nat → Bool → Nat → List ℚ × Nat
  | 0, _, s => ([], s)
  | n + 1, random, s =>
    let (ang, s1) := sampleAngle2 random s
    let (rest, s2) := sampleAnglesList2 n random s1
    (ang :: rest, s2)

/-- Modelled from the spec: the per-inclusion rotation operators — a sampled
orientation when random orientation is requested, else the identity (§3
InclusionSpec: "rotation (identity, or a sampled orientation)"). -/
def rotsOf3 (trig : TrigOracle) (random : Bool) (n : Nat) (s : Nat) : List M3 :=
  (sampleAnglesList3 n random s).1.map fun ang =>
    if random then rotFromTrig3 trig ang else M3.id

/-- The per-inclusion 2D rotation operators. -/
def rotsOf2 (trig : TrigOracle) (random : Bool) (n : Nat) (s : Nat) : List M2 :=
  (sampleAnglesList2 n random s).1.map fun ang =>
    if random then rotFromTrig2 trig ang else M2.id

/-- Modelled from the spec: the boolean mask of one 2D inclusion — the union
over its periodic copies of the rasterized ellipse membership, evaluated with
the inverse (transposed) rotation operator (§4.3, §4.4). -/
def maskOf2 (p : Params2) (rot : M2) (c : V2) : V2 → Bool :=
  let ax := semiAxes2d p.inclusion_radius p.inclusion_aspect_ratio
  let copies := expand2d p.periodic c (maxExtent2 ax) (p.nx : ℚ) (p.ny : ℚ)
  fun v => copies.any fun c' => ellipseMember c' rot.transpose ax v

/-- Modelled from the spec: the boolean mask of one 3D inclusion. -/
def maskOf3 (p : Params3) (rot : M3) (c : V3) : V3 → Bool :=
  let ax := semiAxes3d p.orientation p.inclusion_radius p.inclusion_aspect_ratio
  let copies := expand3d p.periodic c (maxExtent3 ax) (p.nx : ℚ) (p.ny : ℚ) (p.nz : ℚ)
  fun v => copies.any fun c' => ellipsoidMember c' rot.transpose ax v

/-- All per-inclusion masks of a 2D call: centers first, then per-inclusion
rotations, both resolved from the stream before rasterization (§5). -/
def masksOf2 (trig : TrigOracle) (p : Params2) (s : Nat) : List (V2 → Bool) :=
  let (cs, s1) := centersOf2 p s
  List.zipWith (fun c r => maskOf2 p r c) cs
    (rotsOf2 trig p.random_orientation p.num_inclusions s1)

/-- All per-inclusion masks of a 3D call. -/
def masksOf3 (trig : TrigOracle) (p : Params3) (s : Nat) : List (V3 → Bool) :=
  let (cs, s1) := centersOf3 p s
  List.zipWith (fun c r => maskOf3 p r c) cs
    (rotsOf3 trig p.random_orientation p.num_inclusions s1)

/-- Modelled from the spec: §4.5 Compositor in 2D — union (logical OR) across
all masks; a voxel covered by at least one mask takes `inclusion_value`, all
uncovered voxels keep `background_value`.  The voxel at index `(i, j)` has
coordinate `(i, j)`; the trailing axis of the output has size 1 and is
omitted from the indexing. -/
def compositeF2 (bg inc : ℤ) (ms : List (V2 → Bool)) : Nat → Nat → ℤ :=
  fun i j => if ms.any (fun m => m ⟨(i : ℚ), (j : ℚ)⟩) then inc else bg

/-- Modelled from the spec: §4.5 Compositor in 3D. -/
def compositeF3 (bg inc : ℤ) (ms : List (V3 → Bool)) : Nat → Nat → Nat → ℤ :=
  fun i j k => if ms.any (fun m => m ⟨(i : ℚ), (j : ℚ), (k : ℚ)⟩) then inc else bg

/-- The labeled array a valid 2D call produces. -/
def volumeOf2 (trig : TrigOracle) (entropy : Nat) (p : Params2) : Nat → Nat → ℤ :=
  compositeF2 p.background_value p.inclusion_value
    (masksOf2 trig p (initState entropy p.seed))

/-- The labeled array a valid 3D call produces. -/
def volumeOf3 (trig : TrigOracle) (entropy : Nat) (p : Params3) : Nat → Nat → Nat → ℤ :=
  compositeF3 p.background_value p.inclusion_value
    (masksOf3 trig p (initState entropy p.seed))

/-- Modelled from the spec: the 2D entry point — validate eagerly, then
sample, expand, rasterize and composite; failures propagate with no partial
output (§6, §7).  `entropy` stands for the ambient OS entropy consumed only
when no seed is supplied. -/
def create_binary_model_2d (trig : TrigOracle) (entropy : Nat) (p : Params2) :
    Except ConfigError (Nat → Nat → ℤ) :=
  match validate2 p with
  | .error e => .error e
  | .ok _ => .ok (volumeOf2 trig entropy p)

/-- Modelled from the spec: the 3D entry point. -/
def create_binary_model_3d (trig : TrigOracle) (entropy : Nat) (p : Params3) :
    Except ConfigError (Nat → Nat → Nat → ℤ) :=
  match validate3 p with
  | .error e => .error e
  | .ok _ => .ok (volumeOf3 trig entropy p)

end DrpBinaryModel

namespace DrpBinaryModel

/-! ### Shared helper lemmas -/

theorem unit_ratio_sq_le_one_iff (b t : ℚ) (hb : 0 < b) :
    (t / b) ^ 2 ≤ 1 ↔ |t| ≤ b := by
  rw [sq_le_one_iff_abs_le_one, abs_div, abs_of_pos hb, div_le_one hb]

theorem uniformUnit_nonneg (s : Nat) : 0 ≤ uniformUnit s :=
  div_nonneg (by exact_mod_cast Nat.zero_le _) (by norm_num)

theorem uniformUnit_lt_one (s : Nat) : uniformUnit s < 1 := by
  rw [uniformUnit, div_lt_one (by norm_num)]
  exact_mod_cast Nat.mod_lt _ (by norm_num)

theorem validate2_ok_iff (p : Params2) :
    validate2 p = .ok () ↔ (0 < p.nx ∧ 0 < p.ny ∧ 0 < p.inclusion_radius ∧
      0 < p.inclusion_aspect_ratio ∧ p.background_value ≠ p.inclusion_value ∧
      validPositions 2 p.num_inclusions p.positions = true) := by
  rw [validate2]; split_ifs with h <;> simp [h]

theorem validate3_ok_iff (p : Params3) :
    validate3 p = .ok () ↔ (0 < p.nx ∧ 0 < p.ny ∧ 0 < p.nz ∧
      0 < p.inclusion_radius ∧ 0 < p.inclusion_aspect_ratio ∧
      p.background_value ≠ p.inclusion_value ∧
      validPositions 3 p.num_inclusions p.positions = true) := by
  rw [validate3]; split_ifs with h <;> simp [h]

theorem validPositions_some_iff (dim n : Nat) (ps : List (List ℚ)) :
    validPositions dim n (some ps) = true ↔
      (ps.length = n ∧ ∀ q ∈ ps, q.length = dim) := by
  simp [validPositions, List.all_eq_true]

theorem gen2_eq_ok {trig : TrigOracle} {e : Nat} {p : Params2}
    (h : validate2 p = .ok ()) :
    create_binary_model_2d trig e p = .ok (volumeOf2 trig e p) := by
  simp only [create_binary_model_2d, h]

theorem gen3_eq_ok {trig : TrigOracle} {e : Nat} {p : Params3}
    (h : validate3 p = .ok ()) :
    create_binary_model_3d trig e p = .ok (volumeOf3 trig e p) := by
  simp only [create_binary_model_3d, h]

theorem gen2_ok_elim {trig : TrigOracle} {e : Nat} {p : Params2}
    {w : Nat → Nat → ℤ} (h : create_binary_model_2d trig e p = .ok w) :
    w = volumeOf2 trig e p := by
  cases hv : validate2 p with
  | error err => simp only [create_binary_model_2d, hv] at h; exact absurd h (by simp)
  | ok u => simp only [create_binary_model_2d, hv] at h; exact (Except.ok.inj h).symm

theorem gen3_ok_elim {trig : TrigOracle} {e : Nat} {p : Params3}
    {w : Nat → Nat → Nat → ℤ} (h : create_binary_model_3d trig e p = .ok w) :
    w = volumeOf3 trig e p := by
  cases hv : validate3 p with
  | error err => simp only [create_binary_model_3d, hv] at h; exact absurd h (by simp)
  | ok u => simp only [create_binary_model_3d, hv] at h; exact (Except.ok.inj h).symm

theorem any_of_perm {α : Type} {l1 l2 : List α} (h : l1.Perm l2) (f : α → Bool) :
    l1.any f = l2.any f := by
  cases hc : l2.any f with
  | true =>
    obtain ⟨x, hx, hfx⟩ := List.any_eq_true.1 hc
    exact List.any_eq_true.2 ⟨x, h.mem_iff.2 hx, hfx⟩
  | false =>
    refine List.any_eq_false.2 fun x hx => ?_
    exact List.any_eq_false.1 hc x (h.mem_iff.1 hx)

theorem axisOffsets_cases {c r L t : ℚ} (h : t ∈ axisOffsets c r L) :
    t = 0 ∨ (t = L ∧ c - r < 0) ∨ (t = -L ∧ L < c + r) := by
  simp only [axisOffsets] at h
  split_ifs at h <;>
    simp only [List.mem_append, List.mem_cons, List.mem_singleton,
      List.not_mem_nil, or_false, List.mem_nil_iff] at h <;>
    tauto

theorem axisOffsets_length_le (c r L : ℚ) : (axisOffsets c r L).length ≤ 3 := by
  simp only [axisOffsets]
  split_ifs <;> simp

theorem length_flatMap_le {α β : Type} (l : List α) (f : α → List β) (m : Nat)
    (hf : ∀ a, (f a).length ≤ m) : (l.flatMap f).length ≤ l.length * m := by
  induction l with
  | nil => simp
  | cons a l ih =>
    simp only [List.flatMap_cons, List.length_append, List.length_cons]
    calc (f a).length + (l.flatMap f).length ≤ m + l.length * m :=
          Nat.add_le_add (hf a) ih
      _ = (l.length + 1) * m := by ring

end DrpBinaryModel

namespace DrpBinaryModel

/-- Claim C1: in 3D generation the `orientation` token selects exactly one
axis of the unrotated ellipsoid to receive the aspect-ratio scaling — `xy`
scales the Z semi-axis, `zx` the Y semi-axis, `zy` the X semi-axis, the
other two semi-axes being the unscaled radius — and before any rotation the
unrotated `xy` ellipsoid's extent along Z is `radius * aspect_ratio` while
its X and Y extents are `radius`. -/
theorem orientation_token_selects_scaled_axis (r a : ℚ) (hr : 0 < r)
    (ha : 0 < a) (c : V3) (t : ℚ) :
    semiAxes3d .xy r a = ⟨r, r, r * a⟩ ∧
    semiAxes3d .zx r a = ⟨r, r * a, r⟩ ∧
    semiAxes3d .zy r a = ⟨r * a, r, r⟩ ∧
    (ellipsoidMember c M3.id (semiAxes3d .xy r a) ⟨c.x, c.y, c.z + t⟩ = true ↔
      |t| ≤ r * a) ∧
    (ellipsoidMember c M3.id (semiAxes3d .xy r a) ⟨c.x + t, c.y, c.z⟩ = true ↔
      |t| ≤ r) ∧
    (ellipsoidMember c M3.id (semiAxes3d .xy r a) ⟨c.x, c.y + t, c.z⟩ = true ↔
      |t| ≤ r) := by
  have hra := mul_pos hr ha
  refine ⟨rfl, rfl, rfl, ?_, ?_, ?_⟩ <;>
    simp only [ellipsoidMember, M3.apply, M3.id, semiAxes3d, decide_eq_true_eq,
      sub_self, add_sub_cancel_left, one_mul, zero_mul, mul_zero, add_zero,
      zero_add, zero_div, ne_eq, OfNat.ofNat_ne_zero, not_false_iff, zero_pow,
      two_ne_zero]
  · rw [unit_ratio_sq_le_one_iff _ _ hra]
  · rw [unit_ratio_sq_le_one_iff _ _ hr]
  · rw [unit_ratio_sq_le_one_iff _ _ hr]

theorem orientation_token_selects_scaled_axis_witness :
    ellipsoidMember ⟨0, 0, 0⟩ M3.id (semiAxes3d .xy 2 (1 / 2))
      ⟨0, 0, 0 + 1⟩ = true ↔ |(1 : ℚ)| ≤ 2 * (1 / 2) :=
  (orientation_token_selects_scaled_axis 2 (1 / 2) (by norm_num) (by norm_num)
    ⟨0, 0, 0⟩ 1).2.2.2.1

/-- Claim C10: in 2D generation the aspect ratio is applied to the vertical
(Y) semi-axis of the unrotated ellipse: `aspect_ratio = 1` yields a circle,
`< 1` a vertically flattened ellipse, `> 1` a vertically elongated one. -/
theorem aspect_ratio_scales_vertical_semi_axis_2d (r a : ℚ) (hr : 0 < r)
    (ha : 0 < a) (c : V2) (t : ℚ) :
    semiAxes2d r a = ⟨r, r * a⟩ ∧
    (ellipseMember c M2.id (semiAxes2d r a) ⟨c.x + t, c.y⟩ = true ↔ |t| ≤ r) ∧
    (ellipseMember c M2.id (semiAxes2d r a) ⟨c.x, c.y + t⟩ = true ↔
      |t| ≤ r * a) ∧
    (a = 1 → semiAxes2d r a = ⟨r, r⟩) ∧
    (a < 1 → r * a < r) ∧ (1 < a → r < r * a) := by
  have hra := mul_pos hr ha
  refine ⟨rfl, ?_, ?_, ?_, ?_, ?_⟩
  · simp only [ellipseMember, M2.apply, M2.id, semiAxes2d, decide_eq_true_eq,
      sub_self, add_sub_cancel_left, one_mul, zero_mul, mul_zero, add_zero,
      zero_add, zero_div, ne_eq, OfNat.ofNat_ne_zero, not_false_iff, zero_pow,
      two_ne_zero]
    rw [unit_ratio_sq_le_one_iff _ _ hr]
  · simp only [ellipseMember, M2.apply, M2.id, semiAxes2d, decide_eq_true_eq,
      sub_self, add_sub_cancel_left, one_mul, zero_mul, mul_zero, add_zero,
      zero_add, zero_div, ne_eq, OfNat.ofNat_ne_zero, not_false_iff, zero_pow,
      two_ne_zero]
    rw [unit_ratio_sq_le_one_iff _ _ hra]
  · intro h1; simp [semiAxes2d, h1]
  · intro h1; calc r * a < r * 1 := by exact mul_lt_mul_of_pos_left h1 hr
      _ = r := mul_one r
  · intro h1; calc r = r * 1 := (mul_one r).symm
      _ < r * a := mul_lt_mul_of_pos_left h1 hr

theorem aspect_ratio_scales_vertical_semi_axis_2d_witness :
    ellipseMember ⟨0, 0⟩ M2.id (semiAxes2d 2 (1 / 2)) ⟨0, 0 + 1⟩ = true ↔
      |(1 : ℚ)| ≤ 2 * (1 / 2) :=
  (aspect_ratio_scales_vertical_semi_axis_2d 2 (1 / 2) (by norm_num)
    (by norm_num) ⟨0, 0⟩ 1).2.2.1

/-- Configuration with a seed, used to witness the determinism contract. -/
def cfg2Seeded : Params2 := ⟨20, 20, 3, 4, 1, true, none, true, 0, 1, some 42⟩

/-- Configuration with a seed, used to witness the determinism contract. -/
def cfg3Seeded : Params3 :=
  ⟨20, 20, 20, 3, 4, 1, .xy, true, none, true, 0, 1, some 42⟩

/-- Claim C2: with a seed supplied, the generated array (and the sampled
center set) is a deterministic function of the parameters alone — two
invocations under different ambient entropy produce bit-identical results. -/
theorem seeded_runs_bit_identical (trig : TrigOracle) (p2 : Params2)
    (p3 : Params3) (s2 s3 e1 e2 : Nat)
    (h2 : p2.seed = some s2) (h3 : p3.seed = some s3) :
    create_binary_model_2d trig e1 p2 = create_binary_model_2d trig e2 p2 ∧
    create_binary_model_3d trig e1 p3 = create_binary_model_3d trig e2 p3 ∧
    (centersOf2 p2 (initState e1 p2.seed)).1 =
      (centersOf2 p2 (initState e2 p2.seed)).1 ∧
    (centersOf3 p3 (initState e1 p3.seed)).1 =
      (centersOf3 p3 (initState e2 p3.seed)).1 := by
  simp [create_binary_model_2d, create_binary_model_3d, volumeOf2, volumeOf3,
    initState, h2, h3]

theorem seeded_runs_bit_identical_witness :
    create_binary_model_2d trigId 0 cfg2Seeded =
      create_binary_model_2d trigId 1 cfg2Seeded :=
  (seeded_runs_bit_identical trigId cfg2Seeded cfg3Seeded 42 42 0 1 rfl rfl).1

end DrpBinaryModel

namespace DrpBinaryModel

/-- Claim C6: in 3D generation with random orientation requested, each
inclusion's rotation is built from three Euler angles, each drawn uniformly
from `[0, 2π)` (a turn fraction in `[0, 1)` here, one turn being 2π),
composed as `R = Rz(α) · Ry(β) · Rx(γ)`; without random orientation all
three angles are 0 and the rotation operator is the identity. -/
theorem euler_rotation_engine (trig : TrigOracle) (s n : Nat)
    (ht : trig 0 = (1, 0)) :
    (∀ ang : ℚ × ℚ × ℚ, rotFromTrig3 trig ang =
      ((Rz (trig ang.1).1 (trig ang.1).2).mul
        (Ry (trig ang.2.1).1 (trig ang.2.1).2)).mul
        (Rx (trig ang.2.2).1 (trig ang.2.2).2)) ∧
    sampleAngles3 false s = ((0, 0, 0), s) ∧
    (∀ R ∈ rotsOf3 trig false n s, R = M3.id) ∧
    rotFromTrig3 trig (0, 0, 0) = M3.id ∧
    (0 ≤ (sampleAngles3 true s).1.1 ∧ (sampleAngles3 true s).1.1 < 1) ∧
    (0 ≤ (sampleAngles3 true s).1.2.1 ∧ (sampleAngles3 true s).1.2.1 < 1) ∧
    (0 ≤ (sampleAngles3 true s).1.2.2 ∧ (sampleAngles3 true s).1.2.2 < 1) := by
  refine ⟨fun ang => rfl, rfl, ?_, ?_, ?_, ?_, ?_⟩
  · intro R hR
    simp only [rotsOf3, List.mem_map] at hR
    obtain ⟨ang, _, hback⟩ := hR
    simpa using hback.symm
  · simp only [rotFromTrig3, ht]
    with_unfolding_all decide
  · exact ⟨uniformUnit_nonneg _, uniformUnit_lt_one _⟩
  · exact ⟨uniformUnit_nonneg _, uniformUnit_lt_one _⟩
  · exact ⟨uniformUnit_nonneg _, uniformUnit_lt_one _⟩

theorem euler_rotation_engine_witness :
    rotFromTrig3 trigId (0, 0, 0) = M3.id :=
  (euler_rotation_engine trigId 0 1 rfl).2.2.2.1

/-- All masks of a 2D call with zero inclusions reduce to the empty list. -/
theorem masksOf2_eq_nil (trig : TrigOracle) (p : Params2) (s : Nat)
    (hv : validate2 p = .ok ()) (hn : p.num_inclusions = 0) :
    masksOf2 trig p s = [] := by
  have hvp : validPositions 2 p.num_inclusions p.positions = true :=
    ((validate2_ok_iff p).1 hv).2.2.2.2.2
  cases hp : p.positions with
  | none => simp [masksOf2, centersOf2, hp, hn, sampleCenters2]
  | some ps =>
    rw [hp, hn] at hvp
    have hlen : ps.length = 0 := ((validPositions_some_iff 2 0 ps).1 hvp).1
    have hnil : ps = [] := List.length_eq_zero.1 hlen
    simp [masksOf2, centersOf2, hp, hnil]

/-- All masks of a 3D call with zero inclusions reduce to the empty list. -/
theorem masksOf3_eq_nil (trig : TrigOracle) (p : Params3) (s : Nat)
    (hv : validate3 p = .ok ()) (hn : p.num_inclusions = 0) :
    masksOf3 trig p s = [] := by
  have hvp : validPositions 3 p.num_inclusions p.positions = true :=
    ((validate3_ok_iff p).1 hv).2.2.2.2.2.2
  cases hp : p.positions with
  | none => simp [masksOf3, centersOf3, hp, hn, sampleCenters3]
  | some ps =>
    rw [hp, hn] at hvp
    have hlen : ps.length = 0 := ((validPositions_some_iff 3 0 ps).1 hvp).1
    have hnil : ps = [] := List.length_eq_zero.1 hlen
    simp [masksOf3, centersOf3, hp, hnil]

/-- A valid configuration with zero inclusions, for witnessing. -/
def cfg2Zero : Params2 := ⟨5, 5, 0, 1, 1, false, none, false, 0, 1, some 3⟩

/-- A valid 3D configuration with zero inclusions, for witnessing. -/
def cfg3Zero : Params3 := ⟨5, 5, 5, 0, 1, 1, .xy, false, none, false, 0, 1, some 3⟩

/-- Claim C7: a valid configuration with `num_inclusions = 0` succeeds and
every voxel of the returned array is `background_value`. -/
theorem zero_inclusions_all_background (trig : TrigOracle) (e : Nat)
    (p2 : Params2) (p3 : Params3)
    (h2 : validate2 p2 = .ok ()) (h3 : validate3 p3 = .ok ())
    (n2 : p2.num_inclusions = 0) (n3 : p3.num_inclusions = 0) (i j k : Nat) :
    create_binary_model_2d trig e p2 = .ok (volumeOf2 trig e p2) ∧
    create_binary_model_3d trig e p3 = .ok (volumeOf3 trig e p3) ∧
    volumeOf2 trig e p2 i j = p2.background_value ∧
    volumeOf3 trig e p3 i j k = p3.background_value := by
  refine ⟨gen2_eq_ok h2, gen3_eq_ok h3, ?_, ?_⟩
  · rw [volumeOf2, masksOf2_eq_nil trig p2 _ h2 n2]
    simp [compositeF2]
  · rw [volumeOf3, masksOf3_eq_nil trig p3 _ h3 n3]
    simp [compositeF3]

theorem zero_inclusions_all_background_witness :
    volumeOf2 trigId 0 cfg2Zero 0 0 = cfg2Zero.background_value ∧
    volumeOf3 trigId 0 cfg3Zero 0 0 0 = cfg3Zero.background_value := by
  have h := zero_inclusions_all_background trigId 0 cfg2Zero cfg3Zero
    (by with_unfolding_all rfl) (by with_unfolding_all rfl) rfl rfl 0 0 0
  exact ⟨h.2.2.1, h.2.2.2⟩

/-- A 2D configuration whose explicit positions have 3-coordinate rows. -/
def cfg2BadPos : Params2 := ⟨5, 5, 1, 1, 1, false, some [[1, 2, 3]], false, 0, 1, none⟩

/-- A 3D configuration whose explicit positions have 2-coordinate rows. -/
def cfg3BadPos : Params3 :=
  ⟨5, 5, 5, 1, 1, 1, .xy, false, some [[1, 2]], false, 0, 1, none⟩

/-- Claim C8: an explicit positions array whose shape does not match
`(N, dimensionality)` makes the call fail with `ConfigurationError` during
validation, and no output array is produced. -/
theorem mismatched_positions_rejected (trig : TrigOracle) (e : Nat)
    (p2 : Params2) (p3 : Params3) (ps2 ps3 : List (List ℚ))
    (hp2 : p2.positions = some ps2) (hp3 : p3.positions = some ps3)
    (hbad2 : ¬(ps2.length = p2.num_inclusions ∧ ∀ q ∈ ps2, q.length = 2))
    (hbad3 : ¬(ps3.length = p3.num_inclusions ∧ ∀ q ∈ ps3, q.length = 3)) :
    create_binary_model_2d trig e p2 = .error .configurationError ∧
    create_binary_model_3d trig e p3 = .error .configurationError ∧
    (∀ w, create_binary_model_2d trig e p2 ≠ .ok w) ∧
    (∀ w, create_binary_model_3d trig e p3 ≠ .ok w) := by
  have hv2 : validPositions 2 p2.num_inclusions p2.positions = false := by
    rw [hp2]
    cases hc : validPositions 2 p2.num_inclusions (some ps2) with
    | false => rfl
    | true => exact absurd ((validPositions_some_iff _ _ _).1 hc) hbad2
  have hv3 : validPositions 3 p3.num_inclusions p3.positions = false := by
    rw [hp3]
    cases hc : validPositions 3 p3.num_inclusions (some ps3) with
    | false => rfl
    | true => exact absurd ((validPositions_some_iff _ _ _).1 hc) hbad3
  have hval2 : validate2 p2 = .error .configurationError := by
    rw [validate2]
    rw [if_neg]
    simp [hv2]
  have hval3 : validate3 p3 = .error .configurationError := by
    rw [validate3]
    rw [if_neg]
    simp [hv3]
  refine ⟨?_, ?_, ?_, ?_⟩
  · simp only [create_binary_model_2d, hval2]
  · simp only [create_binary_model_3d, hval3]
  · intro w; simp only [create_binary_model_2d, hval2]; exact fun hcon => by cases hcon
  · intro w; simp only [create_binary_model_3d, hval3]; exact fun hcon => by cases hcon

theorem mismatched_positions_rejected_witness :
    create_binary_model_2d trigId 0 cfg2BadPos = .error .configurationError ∧
    create_binary_model_3d trigId 0 cfg3BadPos = .error .configurationError := by
  have h := mismatched_positions_rejected trigId 0 cfg2BadPos cfg3BadPos
    [[1, 2, 3]] [[1, 2]] rfl rfl (by simp) (by simp)
  exact ⟨h.1, h.2.1⟩

end DrpBinaryModel

namespace DrpBinaryModel

/-- A valid 3D configuration with zero inclusions on a 1×1×1 grid: its
output is uniformly the background value, so the inclusion value never
occurs in the returned array. -/
def cfg3OnlyBackground : Params3 :=
  ⟨1, 1, 1, 0, 1, 1, .xy, false, none, false, 0, 1, some 7⟩

/-- Whether a label value occurs anywhere in the `nx × ny × nz` array. -/
def hasLabel3 (w : Nat → Nat → Nat → ℤ) (nx ny nz : Nat) (v : ℤ) : Bool :=
  (List.range nx).any fun i => (List.range ny).any fun j =>
    (List.range nz).any fun k => w i j k == v

/-- Counterexample to claim C3 as stated: for the valid configuration
`cfg3OnlyBackground` (zero inclusions) the generated array contains no voxel
with the inclusion value, so its value set is `{background_value}`, not
exactly `{background_value, inclusion_value}`. -/
theorem output_value_set_not_exact :
    (create_binary_model_3d trigId 0 cfg3OnlyBackground).map
      (fun w => hasLabel3 w 1 1 1 cfg3OnlyBackground.inclusion_value) =
      .ok false := by
  with_unfolding_all rfl

/-- Claim C3 (amended): every voxel of the returned array carries either
`background_value` or `inclusion_value` — the value set is a subset of
`{background_value, inclusion_value}`, with no third value ever appearing
(equality of the two sets can fail, e.g. with zero inclusions). -/
theorem output_values_subset (trig : TrigOracle) (e : Nat)
    (p2 : Params2) (p3 : Params3) (w2 : Nat → Nat → ℤ)
    (w3 : Nat → Nat → Nat → ℤ)
    (h2 : create_binary_model_2d trig e p2 = .ok w2)
    (h3 : create_binary_model_3d trig e p3 = .ok w3) (i j k : Nat) :
    (w2 i j = p2.background_value ∨ w2 i j = p2.inclusion_value) ∧
    (w3 i j k = p3.background_value ∨ w3 i j k = p3.inclusion_value) := by
  constructor
  · rw [gen2_ok_elim h2, volumeOf2, compositeF2]
    split_ifs <;> simp
  · rw [gen3_ok_elim h3, volumeOf3, compositeF3]
    split_ifs <;> simp

theorem output_values_subset_witness :
    (volumeOf2 trigId 0 cfg2Seeded 0 0 = cfg2Seeded.background_value ∨
      volumeOf2 trigId 0 cfg2Seeded 0 0 = cfg2Seeded.inclusion_value) ∧
    (volumeOf3 trigId 0 cfg3Seeded 0 0 0 = cfg3Seeded.background_value ∨
      volumeOf3 trigId 0 cfg3Seeded 0 0 0 = cfg3Seeded.inclusion_value) :=
  output_values_subset trigId 0 cfg2Seeded cfg3Seeded
    (volumeOf2 trigId 0 cfg2Seeded) (volumeOf3 trigId 0 cfg3Seeded)
    (gen2_eq_ok (by with_unfolding_all rfl))
    (gen3_eq_ok (by with_unfolding_all rfl)) 0 0 0

end DrpBinaryModel

namespace DrpBinaryModel

/-- Claim C4: with periodic mode enabled, the periodic-image expansion of a
single inclusion emits at most 9 copies in 2D and at most 27 in 3D; every
emitted copy is offset by `−L`, `0` or `+L` along each axis (a nonzero
offset only along a crossed axis), and every emitted copy's translated
bounding region intersects the domain (non-intersecting copies are
omitted). -/
theorem periodic_copy_bound (c2 : V2) (c3 : V3) (rmax Lx Ly Lz : ℚ) :
    (expand2d true c2 rmax Lx Ly).length ≤ 9 ∧
    (expand3d true c3 rmax Lx Ly Lz).length ≤ 27 ∧
    (∀ c' ∈ expand2d true c2 rmax Lx Ly,
      (c'.x - c2.x = -Lx ∨ c'.x - c2.x = 0 ∨ c'.x - c2.x = Lx) ∧
      (c'.y - c2.y = -Ly ∨ c'.y - c2.y = 0 ∨ c'.y - c2.y = Ly) ∧
      intervalHits c'.x rmax Lx = true ∧ intervalHits c'.y rmax Ly = true) ∧
    (∀ c' ∈ expand3d true c3 rmax Lx Ly Lz,
      (c'.x - c3.x = -Lx ∨ c'.x - c3.x = 0 ∨ c'.x - c3.x = Lx) ∧
      (c'.y - c3.y = -Ly ∨ c'.y - c3.y = 0 ∨ c'.y - c3.y = Ly) ∧
      (c'.z - c3.z = -Lz ∨ c'.z - c3.z = 0 ∨ c'.z - c3.z = Lz) ∧
      intervalHits c'.x rmax Lx = true ∧ intervalHits c'.y rmax Ly = true ∧
      intervalHits c'.z rmax Lz = true) := by
  refine ⟨?_, ?_, ?_, ?_⟩
  · rw [expand2d, if_pos rfl]
    calc (((axisOffsets c2.x rmax Lx).flatMap fun ox =>
          (axisOffsets c2.y rmax Ly).map fun oy =>
            V2.mk (c2.x + ox) (c2.y + oy)).filter _).length
        ≤ ((axisOffsets c2.x rmax Lx).flatMap fun ox =>
          (axisOffsets c2.y rmax Ly).map fun oy =>
            V2.mk (c2.x + ox) (c2.y + oy)).length := List.length_filter_le _ _
      _ ≤ (axisOffsets c2.x rmax Lx).length * 3 :=
          length_flatMap_le _ _ 3 fun ox => by
            rw [List.length_map]; exact axisOffsets_length_le _ _ _
      _ ≤ 3 * 3 := Nat.mul_le_mul_right 3 (axisOffsets_length_le _ _ _)
      _ ≤ 9 := by norm_num
  · rw [expand3d, if_pos rfl]
    calc (((axisOffsets c3.x rmax Lx).flatMap fun ox =>
          (axisOffsets c3.y rmax Ly).flatMap fun oy =>
            (axisOffsets c3.z rmax Lz).map fun oz =>
              V3.mk (c3.x + ox) (c3.y + oy) (c3.z + oz)).filter _).length
        ≤ ((axisOffsets c3.x rmax Lx).flatMap fun ox =>
          (axisOffsets c3.y rmax Ly).flatMap fun oy =>
            (axisOffsets c3.z rmax Lz).map fun oz =>
              V3.mk (c3.x + ox) (c3.y + oy) (c3.z + oz)).length :=
          List.length_filter_le _ _
      _ ≤ (axisOffsets c3.x rmax Lx).length * 9 :=
          length_flatMap_le _ _ 9 fun ox => by
            calc ((axisOffsets c3.y rmax Ly).flatMap fun oy =>
                  (axisOffsets c3.z rmax Lz).map fun oz =>
                    V3.mk (c3.x + ox) (c3.y + oy) (c3.z + oz)).length
                ≤ (axisOffsets c3.y rmax Ly).length * 3 :=
                  length_flatMap_le _ _ 3 fun oy => by
                    rw [List.length_map]; exact axisOffsets_length_le _ _ _
              _ ≤ 3 * 3 := Nat.mul_le_mul_right 3 (axisOffsets_length_le _ _ _)
              _ ≤ 9 := by norm_num
      _ ≤ 3 * 9 := Nat.mul_le_mul_right 9 (axisOffsets_length_le _ _ _)
      _ ≤ 27 := by norm_num
  · intro c' hc'
    rw [expand2d, if_pos rfl] at hc'
    obtain ⟨hmem, hpred⟩ := List.mem_filter.1 hc'
    obtain ⟨ox, hox, hmem2⟩ := List.mem_flatMap.1 hmem
    obtain ⟨oy, hoy, hback⟩ := List.mem_map.1 hmem2
    rw [Bool.and_eq_true] at hpred
    obtain ⟨hhx, hhy⟩ := hpred
    subst hback
    refine ⟨?_, ?_, hhx, hhy⟩
    · rw [add_sub_cancel_left]
      rcases axisOffsets_cases hox with h | ⟨h, _⟩ | ⟨h, _⟩ <;> subst h <;> tauto
    · rw [add_sub_cancel_left]
      rcases axisOffsets_cases hoy with h | ⟨h, _⟩ | ⟨h, _⟩ <;> subst h <;> tauto
  · intro c' hc'
    rw [expand3d, if_pos rfl] at hc'
    obtain ⟨hmem, hpred⟩ := List.mem_filter.1 hc'
    obtain ⟨ox, hox, hmem2⟩ := List.mem_flatMap.1 hmem
    obtain ⟨oy, hoy, hmem3⟩ := List.mem_flatMap.1 hmem2
    obtain ⟨oz, hoz, hback⟩ := List.mem_map.1 hmem3
    rw [Bool.and_eq_true, Bool.and_eq_true] at hpred
    obtain ⟨⟨hhx, hhy⟩, hhz⟩ := hpred
    subst hback
    refine ⟨?_, ?_, ?_, hhx, hhy, hhz⟩
    · rw [add_sub_cancel_left]
      rcases axisOffsets_cases hox with h | ⟨h, _⟩ | ⟨h, _⟩ <;> subst h <;> tauto
    · rw [add_sub_cancel_left]
      rcases axisOffsets_cases hoy with h | ⟨h, _⟩ | ⟨h, _⟩ <;> subst h <;> tauto
    · rw [add_sub_cancel_left]
      rcases axisOffsets_cases hoz with h | ⟨h, _⟩ | ⟨h, _⟩ <;> subst h <;> tauto

theorem periodic_copy_bound_witness :
    (expand2d true ⟨0, 0⟩ 3 10 10).length ≤ 9 ∧
    ((⟨0 + 10, 0 + 10⟩ : V2).x - (⟨0, 0⟩ : V2).x = -10 ∨
      (⟨0 + 10, 0 + 10⟩ : V2).x - (⟨0, 0⟩ : V2).x = 0 ∨
      (⟨0 + 10, 0 + 10⟩ : V2).x - (⟨0, 0⟩ : V2).x = 10) := by
  have h := periodic_copy_bound ⟨0, 0⟩ ⟨0, 0, 0⟩ 3 10 10 10
  refine ⟨h.1, (h.2.2.1 ⟨0 + 10, 0 + 10⟩ ?_).1⟩
  with_unfolding_all decide

end DrpBinaryModel

namespace DrpBinaryModel

/-- The concrete scenario of the spec's testable properties: a 10×10 2D call
with one inclusion of radius 3 positioned explicitly at `[0, 0]` and
periodic mode enabled. -/
def cfgCorner : Params2 := ⟨10, 10, 1, 3, 1, false, some [[0, 0]], true, 0, 1, none⟩

/-- Coverage of the position `(i, j)` of the 2×2 tiled 20×20 grid by the
infinite periodic tiling of the corner inclusion: within distance 3 of some
center in `{0, 10, 20}²`. -/
def nineCenterCover (i j : Nat) : Bool :=
  ([0, 10, 20] : List ℤ).any fun cx => ([0, 10, 20] : List ℤ).any fun cy =>
    decide (((i : ℤ) - cx) ^ 2 + ((j : ℤ) - cy) ^ 2 ≤ 9)

/-- Claim C5: the corner-centered periodic inclusion marks inclusion-valued
voxels at all four corners of the 10×10 grid, and tiling the output 2×2
shows no discontinuity across tile seams — every voxel of the tiled 20×20
grid is inclusion-valued exactly when the infinite periodic tiling of the
inclusion covers it. -/
theorem periodic_corner_wrap_seamless :
    (create_binary_model_2d trigId 0 cfgCorner).map (fun w =>
      (w 0 0 == 1) && (w 9 0 == 1) && (w 0 9 == 1) && (w 9 9 == 1) &&
      ((List.range 20).all fun i => (List.range 20).all fun j =>
        ((w (i % 10) (j % 10) == 1) == nineCenterCover i j))) = .ok true := by
  with_unfolding_all rfl

/-- A concrete 3D mask covering everything. -/
def maskFull : V3 → Bool := fun _ => true

/-- The empty 3D mask. -/
def maskNone : V3 → Bool := fun _ => false

/-- A concrete 2D mask covering everything. -/
def maskFull2 : V2 → Bool := fun _ => true

/-- The empty 2D mask. -/
def maskNone2 : V2 → Bool := fun _ => false

/-- A plain valid 2D configuration used to witness the compositing law. -/
def cfg2Plain : Params2 :=
  ⟨4, 4, 1, 1, 1, false, some [[2, 2]], false, 0, 1, some 1⟩

/-- A plain valid 3D configuration used to witness the compositing law. -/
def cfg3Plain : Params3 :=
  ⟨4, 4, 4, 1, 1, 1, .xy, false, some [[2, 2, 2]], false, 0, 1, some 1⟩

/-- Claim C9: in both the 2D and the 3D generator the final labeled array is
the union (logical OR) of the per-inclusion mask collection — a voxel
covered by at least one mask becomes `inclusion_value`, uncovered voxels
keep `background_value` — and composing the same collection of masks in any
order yields the same array. -/
theorem union_composition_order_independent (bg inc : ℤ)
    (ms2 ms2' : List (V2 → Bool)) (ms3 ms3' : List (V3 → Bool))
    (h2 : ms2.Perm ms2') (h3 : ms3.Perm ms3') (trig : TrigOracle)
    (e : Nat) (p2 : Params2) (p3 : Params3) (w2 : Nat → Nat → ℤ)
    (w3 : Nat → Nat → Nat → ℤ)
    (hw2 : create_binary_model_2d trig e p2 = .ok w2)
    (hw3 : create_binary_model_3d trig e p3 = .ok w3) (i j k : Nat) :
    compositeF2 bg inc ms2 = compositeF2 bg inc ms2' ∧
    compositeF3 bg inc ms3 = compositeF3 bg inc ms3' ∧
    ((∃ m ∈ ms2, m ⟨(i : ℚ), (j : ℚ)⟩ = true) →
      compositeF2 bg inc ms2 i j = inc) ∧
    ((∀ m ∈ ms2, m ⟨(i : ℚ), (j : ℚ)⟩ = false) →
      compositeF2 bg inc ms2 i j = bg) ∧
    ((∃ m ∈ ms3, m ⟨(i : ℚ), (j : ℚ), (k : ℚ)⟩ = true) →
      compositeF3 bg inc ms3 i j k = inc) ∧
    ((∀ m ∈ ms3, m ⟨(i : ℚ), (j : ℚ), (k : ℚ)⟩ = false) →
      compositeF3 bg inc ms3 i j k = bg) ∧
    w2 = compositeF2 p2.background_value p2.inclusion_value
      (masksOf2 trig p2 (initState e p2.seed)) ∧
    w3 = compositeF3 p3.background_value p3.inclusion_value
      (masksOf3 trig p3 (initState e p3.seed)) := by
  refine ⟨?_, ?_, ?_, ?_, ?_, ?_, gen2_ok_elim hw2, gen3_ok_elim hw3⟩
  · funext i' j'
    rw [compositeF2, compositeF2, any_of_perm h2]
  · funext i' j' k'
    rw [compositeF3, compositeF3, any_of_perm h3]
  · intro hcov
    rw [compositeF2, if_pos]
    exact List.any_eq_true.2 hcov
  · intro hunc
    rw [compositeF2, if_neg]
    intro hany
    obtain ⟨m, hm, hmt⟩ := List.any_eq_true.1 hany
    rw [hunc m hm] at hmt
    cases hmt
  · intro hcov
    rw [compositeF3, if_pos]
    exact List.any_eq_true.2 hcov
  · intro hunc
    rw [compositeF3, if_neg]
    intro hany
    obtain ⟨m, hm, hmt⟩ := List.any_eq_true.1 hany
    rw [hunc m hm] at hmt
    cases hmt

theorem union_composition_order_independent_witness :
    compositeF2 0 1 [maskFull2, maskNone2] =
      compositeF2 0 1 [maskNone2, maskFull2] ∧
    compositeF3 0 1 [maskFull, maskNone] =
      compositeF3 0 1 [maskNone, maskFull] := by
  have h := union_composition_order_independent 0 1 [maskFull2, maskNone2]
    [maskNone2, maskFull2] [maskFull, maskNone] [maskNone, maskFull]
    (List.Perm.swap _ _ _) (List.Perm.swap _ _ _) trigId 0 cfg2Plain cfg3Plain
    (volumeOf2 trigId 0 cfg2Plain) (volumeOf3 trigId 0 cfg3Plain)
    (gen2_eq_ok (by with_unfolding_all rfl))
    (gen3_eq_ok (by with_unfolding_all rfl)) 0 0 0
  exact ⟨h.1, h.2.1⟩

end DrpBinaryModel
